import Mathlib

/-!
Verification development for the ScrapBook crawl-and-extract pipeline
(`src/scripts/base_scraper.py`, `book_scraper.py`, `category_scraper.py`,
`main_scraper.py`, `utils/utils.py`).

The Python code is shallowly embedded: pure helpers become Lean functions over
`List Char` / `String`, prices become `Rat` (Python floats are used only as
decimal carriers here), HTTP and filesystem effects become explicit function
parameters and state records, and Python exceptions become `Except PyExc`.
-/

namespace ScrapBook

/-! ## Python string primitives -/

/-- Python's ASCII whitespace set (`str.isspace` restricted to ASCII):
space, 0x09-0x0D (tab, newline, vertical tab, form feed, carriage return)
and 0x1C-0x1F. Non-ASCII Unicode spaces are not modelled; no claim is
evaluated at them. -/
def pyIsSpace (c : Char) : Bool :=
  c == ' ' || ('\t' ≤ c && c ≤ '\x0d') || ('\x1c' ≤ c && c ≤ '\x1f')

/-- Characters of a left-and-right whitespace strip, modelling Python
`str.strip()` on ASCII text. -/
def pyStripChars (l : List Char) : List Char :=
  ((l.dropWhile pyIsSpace).reverse.dropWhile pyIsSpace).reverse

/-- Python `str.strip()`. -/
def pyStrip (s : String) : String :=
  String.mk (pyStripChars s.data)

/-- Does `hay` start with `needle`? (helper for substring search). -/
def startsWithChars : List Char → List Char → Bool
  | [], _ => true
  | _ :: _, [] => false
  | n :: ns, h :: hs => n == h && startsWithChars ns hs

/-- Does `needle` occur in `hay`? Models Python `needle in hay`. -/
def occursIn (needle : List Char) : List Char → Bool
  | [] => needle.isEmpty
  | h :: t => startsWithChars needle (h :: t) || occursIn needle t

/-- Python `needle in hay` for strings. -/
def strContains (hay needle : String) : Bool :=
  occursIn needle.data hay.data

/-- ASCII lower-casing of one character (models `str.lower()` on the ASCII
rating-class strings). -/
def lowerChar (c : Char) : Char :=
  if c.isUpper then Char.ofNat (c.toNat + 32) else c

/-- ASCII `str.lower()`. -/
def lowerStr (s : String) : String :=
  String.mk (s.data.map lowerChar)

/-- Python `text.split(sep)` for a one-character separator. -/
def splitOnChar (sep : Char) : List Char → List (List Char)
  | [] => [[]]
  | c :: cs =>
    let r := splitOnChar sep cs
    if c == sep then [] :: r
    else
      match r with
      | [] => [[c]]
      | h :: t => (c :: h) :: t

/-- Python `text.split(sep)[0]`. -/
def headSplit (sep : Char) (l : List Char) : List Char :=
  match splitOnChar sep l with
  | [] => []
  | h :: _ => h

/-- Python `text.split(sep)[-1]`. -/
def lastSplit (sep : Char) (l : List Char) : List Char :=
  (splitOnChar sep l).getLastD []

/-- Python `text.replace(c, "")`: drop every occurrence of one character. -/
def removeAll (sep : Char) (l : List Char) : List Char :=
  l.filter (fun c => c != sep)

/-- Is the character `c` present? -/
def containsChar (l : List Char) (c : Char) : Bool :=
  l.any (fun d => d == c)

/-- Digit run to a natural number (usual base-10 fold). -/
def digitsToNat (l : List Char) : Nat :=
  l.foldl (fun a c => 10 * a + (c.toNat - 48)) 0

/-- Python `int(text)` on an already stripped string: optional sign followed
by a nonempty digit run (digit-group underscores are not modelled; the site
never produces them). -/
def pyIntParse (l : List Char) : Option Int :=
  let digitsOnly : List Char → Option Int := fun r =>
    if r.isEmpty then none
    else if r.all Char.isDigit then some (digitsToNat r : Int) else none
  match l with
  | '+' :: r => digitsOnly r
  | '-' :: r => (digitsOnly r).map (fun n => -n)
  | r => digitsOnly r

/-- A Python `float` value as `float(text)` can produce it: a finite value
(carried exactly as a rational — binary float64 rounding and
overflow-to-infinity of huge exponents are not modelled, the site's prices
are short decimals), an infinity, or a nan. -/
inductive PyFloat where
  | finite (q : Rat)
  | inf
  | neginf
  | nan

/-- Unary minus on a parsed float (for a leading `-` sign). -/
def pyFloatNeg : PyFloat → PyFloat
  | .finite q => .finite (-q)
  | .inf => .neginf
  | .neginf => .inf
  | .nan => .nan

/-- Split a character list at the first separator; returns the part before
and, when a separator occurred, the part after it. -/
def splitAtFirst (isSep : Char → Bool) : List Char → (List Char × Option (List Char))
  | [] => ([], none)
  | c :: cs =>
    if isSep c then ([], some cs)
    else
      let r := splitAtFirst isSep cs
      (c :: r.1, r.2)

/-- The exponent separator of a float literal. -/
def expSepChar (c : Char) : Bool := c == 'e' || c == 'E'

/-- The decimal point. -/
def dotSepChar (c : Char) : Bool := c == '.'

/-- Continuation of Python's `digitpart` after its first digit: digits with
single underscores allowed only between digits (PEP 515). -/
def isDigitPartRest : List Char → Bool
  | [] => true
  | [c] => c.isDigit
  | c :: d :: ds =>
    if c == '_' then d.isDigit && isDigitPartRest (d :: ds)
    else c.isDigit && isDigitPartRest (d :: ds)

/-- Python's `digitpart`: a nonempty digit run with optional single
underscores between digits. -/
def isDigitPart (l : List Char) : Bool :=
  match l with
  | [] => false
  | c :: cs => c.isDigit && isDigitPartRest cs

/-- Value of a digitpart (underscores dropped). -/
def digitPartVal (l : List Char) : Nat :=
  digitsToNat (l.filter (fun c => c != '_'))

/-- Python float mantissa: `digitpart`, `digitpart "." [digitpart]` or
`"." digitpart`, valued as an exact rational. -/
def mantissaVal (l : List Char) : Option Rat :=
  let sp := splitAtFirst dotSepChar l
  match sp.2 with
  | none =>
    if isDigitPart sp.1 then some (digitPartVal sp.1 : Rat) else none
  | some fp =>
    if (sp.1.isEmpty || isDigitPart sp.1) && (fp.isEmpty || isDigitPart fp)
        && !(sp.1.isEmpty && fp.isEmpty) then
      some ((digitPartVal sp.1 : Rat)
        + (digitPartVal fp : Rat) / ((10 ^ (fp.filter (fun c => c != '_')).length : Nat) : Rat))
    else none

/-- Python float exponent after `e`/`E`: optional sign then a digitpart. -/
def expIntVal (l : List Char) : Option Int :=
  match l with
  | '+' :: r => if isDigitPart r then some (digitPartVal r : Int) else none
  | '-' :: r => if isDigitPart r then some (-(digitPartVal r : Int)) else none
  | r => if isDigitPart r then some (digitPartVal r : Int) else none

/-- Finite (non-inf/nan) body of `float(text)` after sign removal: mantissa
with an optional `e`/`E` exponent, valued exactly. -/
def pyFloatFinite (l : List Char) : Option Rat :=
  let sp := splitAtFirst expSepChar l
  match mantissaVal sp.1 with
  | none => none
  | some m =>
    match sp.2 with
    | none => some m
    | some ex =>
      match expIntVal ex with
      | none => none
      | some e =>
        some (if 0 ≤ e then m * ((10 ^ e.toNat : Nat) : Rat)
          else m / ((10 ^ (-e).toNat : Nat) : Rat))

/-- Body of `float(text)` after sign removal: `inf`/`infinity`/`nan`
(case-insensitive) or a finite literal. -/
def pyFloatUnsigned (l : List Char) : Option PyFloat :=
  let low := l.map lowerChar
  if low == "inf".data || low == "infinity".data then some PyFloat.inf
  else if low == "nan".data then some PyFloat.nan
  else (pyFloatFinite l).map PyFloat.finite

/-- Python `float(text)`: strips surrounding whitespace, then an optional
sign and the unsigned body; `none` models a raised `ValueError`. -/
def pyFloatVal (l : List Char) : Option PyFloat :=
  match pyStripChars l with
  | '+' :: r => pyFloatUnsigned r
  | '-' :: r => (pyFloatUnsigned r).map pyFloatNeg
  | r => pyFloatUnsigned r

/-! ## BaseScraper field extractors (`base_scraper.py`) -/

/-- The `rating_map` dict of `BaseScraper.extract_rating`, in insertion
order. -/
def ratingMap : List (String × Nat) :=
  [("One", 1), ("Two", 2), ("Three", 3), ("Four", 4), ("Five", 5)]

/-- The `for word, rating in rating_map.items(): if word in rating_class:
return rating` loop. -/
def ratingFirstMatch : List (String × Nat) → String → Nat
  | [], _ => 0
  | p :: rest, s => if strContains s p.1 then p.2 else ratingFirstMatch rest s

/-- Embeds `BaseScraper.extract_rating`: first case-sensitive substring match against
the capitalised words One..Five, else 0. -/
def extract_rating (rating_class : String) : Nat :=
  ratingFirstMatch ratingMap rating_class

/-- The capitalised tokens of `ratingMap` that occur (case-sensitively) in
`s`; used to state which dict entries the loop can hit. -/
def capMatches (s : String) : List String :=
  (ratingMap.map Prod.fst).filter (fun w => strContains s w)

/-- The spec side of C1: lower-case tokens occurring case-insensitively. -/
def ciMatches (s : String) : List String :=
  ["one", "two", "three", "four", "five"].filter (fun w => strContains (lowerStr s) w)

/-- Embeds `BaseScraper.clean_price`: `price_text.replace("£", "").replace("$",
"").strip()` then `float(...)`; `ValueError`/`AttributeError` are caught and
give 0.0. -/
def clean_price (price_text : String) : PyFloat :=
  let price_clean := pyStripChars (removeAll '$' (removeAll '£' price_text.data))
  match pyFloatVal price_clean with
  | some v => v
  | none => .finite 0

/-- Embeds `DataProcessor.clean_price` (`utils/utils.py`): removes the five currency
symbols, then every non-digit/non-dot character, then `float(...)` if
nonempty; errors give 0.0. -/
def dp_clean_price (price_text : String) : PyFloat :=
  if price_text == "" then .finite 0
  else
    let l1 := price_text.data.filter
      (fun c => !(c == '£' || c == '$' || c == '€' || c == '¥' || c == '₹'))
    let l2 := l1.filter (fun c => c.isDigit || c == '.')
    if l2.isEmpty then .finite 0
    else
      match pyFloatVal l2 with
      | some v => v
      | none => .finite 0

/-! ## Page model and fetching

A fetched page (`BeautifulSoup` document) is modelled by the element queries
the scrapers perform on it; the "Page X of Y" regex capture of
`get_total_pages` is modelled pre-extracted (`pager = some r` means
`li.current` is present, `r = some y` that the regex matched with capture
`y`). -/

/-- A listing element (`article.product_pod`) through the queries
`extract_book_details` performs on it. `h3a` is the `h3 > a` element with its
`title`/`href` attribute defaults (`none` means one of the two `find` calls
returned `None`, making the chained access raise); `imageContainer`'s outer
layer is `div.image_container` (absent container makes `.find("img")` raise),
the inner layer its `img`'s `src`. `ratingClass` is the space-joined class
list of the `p.star-rating` element. -/
structure BookElement where
  h3a : Option (String × String)
  priceText : Option String
  ratingClass : Option String
  availabilityText : Option String
  imageContainer : Option (Option String)

/-- A parsed document through the queries the scrapers perform on it. Listing
queries: `elements`, `pager`, `hasNext`, `sideCategoryLinks` (text/href pairs
of the side-navigation anchors). Detail queries: the remaining fields, with
`Option` layers mirroring presence of the queried elements (`descriptionP`:
outer = `div#product_description` present, inner = its sibling `p`;
`itemActiveImg`: outer = `div.item.active` present, inner = its `img` `src`).
-/
structure Soup where
  elements : List BookElement := []
  pager : Option (Option Nat) := none
  hasNext : Bool := false
  sideCategoryLinks : Option (List (String × String)) := none
  h1 : Option String := none
  priceColor : Option String := none
  ratingClass : Option String := none
  availability : Option String := none
  breadcrumbLinks : Option (List String) := none
  itemActiveImg : Option (Option String) := none
  productTable : Option (List (String × String)) := none
  descriptionP : Option (Option String) := none

/-- The network as the scrapers see it: `fetch url` is the result of
`BaseScraper.fetch_page(url)` — `none` on any failure, a parsed document on
success. -/
structure Env where
  fetch : String → Option Soup

/-- Python exceptions relevant to the embedded code. -/
inductive PyExc where
  | attributeError
  | valueError
  | httpError
  | connectionError
  | parseError

/-- Python `str(e)` for the run-result error field. -/
def pyExcMsg : PyExc → String
  | .attributeError => "object has no attribute logger"
  | .valueError => "could not convert string to float"
  | .httpError => "HTTP error"
  | .connectionError => "connection error"
  | .parseError => "parse error"

/-- The raw HTTP layer under `fetch_page`: `session.get` either returns a
response (final status and body) or raises a `RequestException`. -/
inductive HttpOutcome where
  | response (status : Nat) (body : String)
  | raised (e : PyExc)

/-- Embeds `response.raise_for_status()`: raises `HTTPError` exactly for 4xx/5xx
final statuses. -/
def raise_for_status (status : Nat) : Except PyExc Unit :=
  if 400 ≤ status ∧ status < 600 then .error .httpError else .ok ()

/-- The `try`-block body of `BaseScraper.fetch_page`: GET, `raise_for_status`,
then parse (`parse` models `BeautifulSoup(content, "lxml")`, `.error` a parse
exception). A `.error` result models an exception reaching the handlers. -/
def fetch_page_body (net : String → HttpOutcome) (parse : String → Except PyExc Soup)
    (url : String) : Except PyExc Soup :=
  match net url with
  | .raised e => .error e
  | .response status body =>
    match raise_for_status status with
    | .error e => .error e
    | .ok _ => parse body

/-- Embeds `BaseScraper.fetch_page`: both `except` clauses turn any exception into
`None`. -/
def fetch_page (net : String → HttpOutcome) (parse : String → Except PyExc Soup)
    (url : String) : Option Soup :=
  match fetch_page_body net parse url with
  | .ok soup => some soup
  | .error _ => none

/-! ## Filesystem model and BaseScraper persistence -/

/-- Filesystem state for the save paths: whether `os.makedirs` succeeds,
whether `open(...)` for writing succeeds, and the files written so far
(path and record count). -/
structure FS where
  mkdirOk : Bool
  openOk : Bool
  files : List (String × Nat)

/-- Embeds `BaseScraper.save_to_csv`. Empty data: warn and return. Directory
creation failure: the handler evaluates `self.logger`, an attribute that does
not exist, so an `AttributeError` escapes the save (modelled as `.error`). A
failing file open is caught as `IOError` and logged. `csv.DictWriter` takes
its fieldnames from the first row (`keysOf` gives a row's dict keys, modulo
order) and, with its default `extrasaction="raise"`, raises an uncaught
`ValueError` when any row carries a key outside those fieldnames; the
partially-written file on that path is not tracked. -/
def save_to_csv {α : Type} (keysOf : α → List String) (fs : FS) (filename : String)
    (data : List α) : Except PyExc FS :=
  match data with
  | [] => .ok fs
  | first :: _ =>
    if fs.mkdirOk then
      if fs.openOk then
        if data.all (fun row => (keysOf row).all (fun k => (keysOf first).contains k)) then
          .ok { fs with files := fs.files ++ [("./data/csv/" ++ filename, data.length)] }
        else .error PyExc.valueError
      else .ok fs
    else .error PyExc.attributeError

/-- Embeds `BaseScraper.save_to_json`, same shape as `save_to_csv`. -/
def save_to_json {α : Type} (fs : FS) (filename : String) (data : List α) :
    Except PyExc FS :=
  match data with
  | [] => .ok fs
  | _ :: _ =>
    if fs.mkdirOk then
      if fs.openOk then
        .ok { fs with files := fs.files ++ [("./data/json/" ++ filename, data.length)] }
      else .ok fs
    else .error PyExc.attributeError

/-! ## BookScraper (`book_scraper.py`) -/

def BASE_URL : String := "https://books.toscrape.com"

/-- Models `urllib.parse.urljoin(base, rel)` abstractly: the empty relative
URL resolves to the base, any other value is treated as already absolute. No
claim depends on RFC 3986 resolution — joined URLs are only used as opaque
fetch keys and tested for emptiness. -/
def urljoin (base rel : String) : String :=
  if rel == "" then base else rel

/-- A scraped book dict. `Option`-typed fields model dict keys that a code
path may leave absent (`none` = the key is not in the dict); basic listing
extraction sets only the first six keys. The volatile `scraped_at` timestamp
is not modelled. -/
structure Book where
  title : String
  detail_url : String
  price : PyFloat
  rating : Nat
  availability : String
  image_url : String
  category : Option String
  product_info : Option (List (String × String))
  upc : Option String
  product_type : Option String
  tax : Option PyFloat
  description : Option String

/-- Dict keys of a book record, as the extractors set them (order-insensitive
for the DictWriter check; `scraped_at` is set by both extractors). -/
def bookKeys (b : Book) : List String :=
  ["title", "detail_url", "price", "rating", "availability", "image_url", "scraped_at"]
    ++ (match b.category with | some _ => ["category"] | none => [])
    ++ (match b.product_info with | some _ => ["product_info"] | none => [])
    ++ (match b.upc with | some _ => ["upc"] | none => [])
    ++ (match b.product_type with | some _ => ["product_type"] | none => [])
    ++ (match b.tax with | some _ => ["tax"] | none => [])
    ++ (match b.description with | some _ => ["description"] | none => [])

/-- The key set of a basic listing record. -/
def bkBasic : List String :=
  ["title", "detail_url", "price", "rating", "availability", "image_url", "scraped_at"]

/-- The key set of a full detail record. -/
def bkFull : List String :=
  ["title", "detail_url", "price", "rating", "availability", "image_url", "scraped_at",
   "category", "product_info", "upc", "product_type", "tax", "description"]

/-- Embeds `BookScraper.extract_book_details`: basic info from one listing element.
A missing `h3`/`a` or missing `div.image_container` makes the chained call
raise `AttributeError`, caught by the wrapper → `none`. Note that no
`category` key is ever set here. -/
def extract_book_details (e : BookElement) (page_url : String) : Option Book :=
  match e.h3a with
  | none => none
  | some (titleAttr, href) =>
    match e.imageContainer with
    | none => none
    | some imgOpt =>
      some {
        title := pyStrip titleAttr
        detail_url := urljoin page_url href
        price := match e.priceText with
          | some s => clean_price s
          | none => .finite 0
        rating := match e.ratingClass with
          | some c => extract_rating c
          | none => 0
        availability := match e.availabilityText with
          | some t => pyStrip t
          | none => "Unknown"
        image_url := match imgOpt with
          | some src => urljoin BASE_URL src
          | none => ""
        category := none
        product_info := none
        upc := none
        product_type := none
        tax := none
        description := none }

/-- The breadcrumb-based category of `extract_book_full_details`: the last
`a` of `ul.breadcrumb` when it has at least two links, else `"Unknown"`. -/
def breadcrumbCategory (soup : Soup) : String :=
  match soup.breadcrumbLinks with
  | some links => if 2 ≤ links.length then pyStrip (links.getLastD "") else "Unknown"
  | none => "Unknown"

/-- Python `product_info.get(k, d)` over the rows of the striped table; the dict
keeps the last occurrence of a duplicated key. -/
def tableLookup (t : List (String × String)) (k : String) (d : String) : String :=
  match t.reverse.find? (fun p => p.1 == k) with
  | some p => p.2
  | none => d

/-- Embeds `BookScraper.extract_book_full_details`: full info from a detail page;
`none` exactly when the detail fetch failed. -/
def extract_book_full_details (env : Env) (book_url : String) : Option Book :=
  match env.fetch book_url with
  | none => none
  | some soup =>
    let product_info := soup.productTable.getD []
    some {
      title := match soup.h1 with
        | some t => pyStrip t
        | none => ""
      detail_url := book_url
      price := match soup.priceColor with
        | some s => clean_price s
        | none => .finite 0
      rating := match soup.ratingClass with
        | some c => extract_rating c
        | none => 0
      availability := match soup.availability with
        | some t => pyStrip t
        | none => "Unknown"
      image_url := match soup.itemActiveImg with
        | some (some src) => urljoin BASE_URL src
        | some none => ""
        | none => ""
      category := some (breadcrumbCategory soup)
      product_info := some product_info
      upc := some (tableLookup product_info "UPC" "")
      product_type := some (tableLookup product_info "Product Type" "")
      tax := some (clean_price (tableLookup product_info "Tax" "0"))
      description := some (match soup.descriptionP with
        | some (some p) => pyStrip p
        | some none => ""
        | none => "") }

/-- The per-element body of `BookScraper.scrape_page`'s loop (shared verbatim
by the first-page loop of `scrape_all_books`). The `self.categories`
accumulator and log calls are side effects not modelled. -/
def extractLoop (env : Env) (page_url : String) (efd : Bool) :
    List BookElement → List Book
  | [] => []
  | e :: es =>
    let rest := extractLoop env page_url efd es
    if efd then
      match extract_book_details e page_url with
      | some basic =>
        if basic.detail_url == "" then rest
        else
          match extract_book_full_details env basic.detail_url with
          | some full => full :: rest
          | none => rest
      | none => rest
    else
      match extract_book_details e page_url with
      | some b => b :: rest
      | none => rest

/-- Embeds `BookScraper.scrape_page`: fetch one listing page and extract its books;
a failed fetch yields the empty list. -/
def scrape_page (env : Env) (page_url : String) (efd : Bool) : List Book :=
  match env.fetch page_url with
  | none => []
  | some soup => extractLoop env page_url efd soup.elements

/-- What one element of a detail-following page walk contributes: the full
detail record, or nothing when basic extraction, the detail URL, or the
detail fetch fails. -/
def detailResult (env : Env) (page_url : String) (e : BookElement) : Option Book :=
  match extract_book_details e page_url with
  | none => none
  | some basic =>
    if basic.detail_url == "" then none
    else extract_book_full_details env basic.detail_url

/-- Embeds `BookScraper.get_total_pages`: the regex capture of "Page X of Y" on the
`li.current` text, defaulting to 1 when the element or the match is absent. -/
def get_total_pages (soup : Soup) : Nat :=
  match soup.pager with
  | some (some n) => n
  | some none => 1
  | none => 1

/-- The catalogue listing URL of page `n`. -/
def catalogueUrl (n : Nat) : String :=
  BASE_URL ++ "/catalogue/page-" ++ toString n ++ ".html"

/-- Embeds `BookScraper.scrape_all_books`. Returns the collected books together with
the trace of catalogue listing URLs passed to `fetch_page` by this walk
(detail-page fetches are not part of the trace). `max_pages` is `Option Nat`;
Python's truthiness test `if max_pages:` makes `some 0` behave like `none`
(negative values are not modelled — no claim quantifies over them). -/
def scrape_all_books (env : Env) (efd : Bool) (maxPages : Option Nat) :
    List Book × List String :=
  let firstUrl := catalogueUrl 1
  match env.fetch firstUrl with
  | none => ([], [firstUrl])
  | some firstSoup =>
    let totalMarker := get_total_pages firstSoup
    let total := match maxPages with
      | some m => if m == 0 then totalMarker else min totalMarker m
      | none => totalMarker
    let pageBooks := extractLoop env firstUrl efd firstSoup.elements
    let restNums := List.range' 2 (total - 1)
    (pageBooks ++ (restNums.map (fun n => scrape_page env (catalogueUrl n) efd)).flatten,
     firstUrl :: restNums.map catalogueUrl)

/-! ## CategoryScraper (`category_scraper.py`) -/

/-- A discovered category dict (`scraped_at` not modelled). -/
structure Category where
  name : String
  url : String
  book_count : Int

/-- The per-link body of `CategoryScraper.extract_categories`: name from the
stripped text before the first `(`; count parsed from the text after the last
`(` with every `)` removed, only when both `(` and `)` occur, defaulting to 0
on `ValueError`. -/
def parse_category_link (text href : String) : Category :=
  let full_text := pyStripChars text.data
  let book_count : Int :=
    if containsChar full_text '(' && containsChar full_text ')' then
      match pyIntParse (pyStripChars (removeAll ')' (lastSplit '(' full_text))) with
      | some n => n
      | none => 0
    else 0
  { name := String.mk (pyStripChars (headSplit '(' full_text))
    url := urljoin BASE_URL href
    book_count := book_count }

/-- Embeds `CategoryScraper.extract_categories`: fetch the main page, take the
side-navigation links except the first ("Books"), and parse each. A failed
fetch or missing navigation yields `[]`. -/
def extract_categories (env : Env) : List Category :=
  match env.fetch BASE_URL with
  | none => []
  | some soup =>
    match soup.sideCategoryLinks with
    | none => []
    | some links => (links.drop 1).map (fun p => parse_category_link p.1 p.2)

/-- A category with the validation fields added by
`CategoryScraper.validate_category_urls`. -/
structure VCategory where
  cat : Category
  is_valid : Bool
  err : Option String
  actual_book_count : Option Nat
  has_pagination : Option Bool

/-- The per-category body of `validate_category_urls`. -/
def validate_one (env : Env) (c : Category) : VCategory :=
  if c.url == "" then
    ⟨c, false, some "No URL provided", none, none⟩
  else
    match env.fetch c.url with
    | none => ⟨c, false, some "Could not fetch category page", none, none⟩
    | some soup =>
      let pagination := soup.pager.isSome || soup.hasNext
      if !soup.elements.isEmpty || pagination then
        ⟨c, true, none, some soup.elements.length, some pagination⟩
      else
        ⟨c, false, some "No books found on category page", none, none⟩

/-- Dict keys of a discovered category record (`scraped_at` included). -/
def categoryKeys (_ : Category) : List String :=
  ["name", "url", "book_count", "scraped_at"]

/-- The validated-category keys common to every row. -/
def vkBase : List String :=
  ["name", "url", "book_count", "scraped_at", "is_valid"]

/-- Keys of a row that validated successfully. -/
def vkValid : List String := vkBase ++ ["actual_book_count", "has_pagination"]

/-- Keys of a row that failed validation. -/
def vkInvalid : List String := vkBase ++ ["error"]

/-- Dict keys of a validated-category record as `validate_category_urls`
builds it: the copied category plus `is_valid`, then `error` on the failure
paths or `actual_book_count`/`has_pagination` on success. -/
def vcategoryKeys (v : VCategory) : List String :=
  vkBase
    ++ (match v.err with | some _ => ["error"] | none => [])
    ++ (match v.actual_book_count with | some _ => ["actual_book_count"] | none => [])
    ++ (match v.has_pagination with | some _ => ["has_pagination"] | none => [])

/-! ## ScrapingOrchestrator (`main_scraper.py`)

Timestamped filenames are modelled with fixed names (the timestamp component
is wall-clock state); log emission is not modelled. -/

/-- The inline `try: os.makedirs(...); open(...); json.dump(...) except
(OSError, PermissionError)` pattern used for stats, report and pipeline-result
JSON files: any failure is caught, so it never raises. -/
def inlineJsonSave (fs : FS) (path : String) : FS :=
  if fs.mkdirOk then
    if fs.openOk then { fs with files := fs.files ++ [(path, 1)] } else fs
  else fs

/-- Embeds `ScrapingOrchestrator.scrape_all_categories` (with `save_results=True`,
as the pipeline calls it). Empty discovery returns early without saving;
otherwise the two CSV saves may raise (see `save_to_csv`), the stats JSON
save never does. Returns the validated list, as the code does. -/
def orch_scrape_all_categories (env : Env) (fs : FS) :
    Except PyExc (List VCategory × FS) :=
  let categories := extract_categories env
  match categories with
  | [] => .ok ([], fs)
  | _ :: _ =>
    let validated := categories.map (validate_one env)
    match save_to_csv categoryKeys fs "categories.csv" categories with
    | .error e => .error e
    | .ok fs1 =>
      match save_to_csv vcategoryKeys fs1 "categories_validated.csv" validated with
      | .error e => .error e
      | .ok fs2 => .ok (validated, inlineJsonSave fs2 "category_stats.json")

/-- Embeds `ScrapingOrchestrator.scrape_all_books` (with `save_results=True`). An
empty walk returns early without saving. -/
def orch_scrape_all_books (env : Env) (fs : FS) (efd : Bool)
    (maxPages : Option Nat) : Except PyExc (List Book × FS) :=
  let books := (scrape_all_books env efd maxPages).1
  match books with
  | [] => .ok ([], fs)
  | _ :: _ =>
    match save_to_csv bookKeys fs "books.csv" books with
    | .error e => .error e
    | .ok fs1 =>
      match save_to_json fs1 "books.json" books with
      | .error e => .error e
      | .ok fs2 => .ok (books, fs2)

/-- The summary record of `generate_comprehensive_report` (the statistical
aggregates inside it — price min/max/avg, rating distribution — are pure
arithmetic over the sampled page and are not referenced by any claim; only
the record's existence and the fact that the whole body is wrapped in
`try/except Exception` matter to the pipeline). -/
structure Report where
  totalCategories : Nat
  sampleCount : Nat

/-- Embeds `ScrapingOrchestrator.generate_comprehensive_report`: re-runs category
discovery, samples the first listing page, writes the report with the inline
caught save. Its `try/except Exception` wrapper means it never raises. -/
def generate_comprehensive_report (env : Env) (fs : FS) : Report × FS :=
  let categories := extract_categories env
  let firstPageBooks := scrape_page env (catalogueUrl 1) false
  (⟨categories.length, firstPageBooks.length⟩,
   inlineJsonSave fs "comprehensive_report.json")

/-- The `results` dict of `run_full_scraping_pipeline` as finalized. A
`none` in `categories`/`books` models the key being absent because the stage
that sets it never completed. -/
structure PipelineResult where
  success : Bool
  error : Option String
  categories : Option (List VCategory)
  books : Option (List Book)
  fs : FS

/-- Embeds `ScrapingOrchestrator.run_full_scraping_pipeline`: the three stages run
inside one `try`; any exception is caught and recorded as
`success=False`/`error=str(e)`. (The only exception source in the model is
the `save_to_csv`/`save_to_json` `AttributeError`, which fires before any
write of that call, so `fs` is unchanged on the error paths.) -/
def run_full_scraping_pipeline (env : Env) (fs : FS) (efd : Bool)
    (maxPages : Option Nat) : PipelineResult :=
  match orch_scrape_all_categories env fs with
  | .error e => ⟨false, some (pyExcMsg e), none, none, fs⟩
  | .ok (cats, fs1) =>
    match orch_scrape_all_books env fs1 efd maxPages with
    | .error e => ⟨false, some (pyExcMsg e), some cats, none, fs1⟩
    | .ok (books, fs2) =>
      let rfs := generate_comprehensive_report env fs2
      ⟨true, none, some cats, some books,
       inlineJsonSave rfs.2 "pipeline_results.json"⟩

/-! ## Concrete instances used by counterexamples and witnesses -/

/-- A document with no queried elements. -/
def soupEmpty : Soup := {}

/-- A network where every request yields a 304 Not Modified final response. -/
def net304 : String → HttpOutcome := fun _ => HttpOutcome.response 304 "cached"

/-- A network where every request yields 200 OK. -/
def net200 : String → HttpOutcome := fun _ => HttpOutcome.response 200 "page"

/-- A parser that always succeeds with the empty document. -/
def parseAnyOk : String → Except PyExc Soup := fun _ => .ok soupEmpty

/-- A filesystem where directory creation is denied (read-only
environment). -/
def fsReadOnly : FS := { mkdirOk := false, openOk := false, files := [] }

/-- A fresh writable filesystem. -/
def fs0 : FS := { mkdirOk := true, openOk := true, files := [] }

/-- A network where every fetch fails (`fetch_page` returns `None`). -/
def env0 : Env := { fetch := fun _ => none }

/-- A catalogue whose every page carries the marker "Page 1 of 3" and no
items. -/
def soupP : Soup := { pager := some (some 3) }

/-- Environment serving `soupP` for every URL. -/
def envP : Env := { fetch := fun _ => some soupP }

/-- A listing element whose detail link is `href` (prices and ratings absent,
as permitted by the extractor). -/
def elemFor (href : String) : BookElement :=
  { h3a := some ("Book", href), priceText := none, ratingClass := none,
    availabilityText := none, imageContainer := some none }

/-- A listing page with three items linking to three detail URLs. -/
def soup3 : Soup :=
  { elements := [elemFor "http://d1", elemFor "http://d2", elemFor "http://d3"] }

/-- A detail page whose breadcrumb is Home > Books > Poetry. -/
def detailSoup : Soup := { breadcrumbLinks := some ["Home", "Books", "Poetry"] }

/-- Environment for the partial-failure scenario: the listing page and two of
the three detail pages resolve; the fetch of `http://d2` fails (simulated
404). -/
def env3 : Env :=
  { fetch := fun u =>
      if u == "http://lp" then some soup3
      else if u == "http://d1" then some detailSoup
      else if u == "http://d3" then some detailSoup
      else none }

/-- A one-item listing page for the basic-extraction walk. -/
def soupBasic : Soup := { elements := [elemFor "http://d1"] }

/-- Environment serving only the first catalogue listing page. -/
def envBasic : Env :=
  { fetch := fun u => if u == catalogueUrl 1 then some soupBasic else none }

/-- A book dict with every field at its neutral value (used only as the
`Option.getD` default below). -/
def emptyBook : Book :=
  { title := "", detail_url := "", price := .finite 0, rating := 0, availability := "",
    image_url := "", category := none, product_info := none, upc := none,
    product_type := none, tax := none, description := none }

/-- The detail record scraped from `http://d1` in `env3`. -/
def bookD : Book := (extract_book_full_details env3 "http://d1").getD emptyBook

/-! ## Theorems -/

/-- C1, counterexample: `"star-rating one"` contains, case-insensitively,
exactly the token `one` (so the claim requires rating 1), but
`extract_rating` matches case-sensitively against the capitalised words and
returns 0. -/
theorem extract_rating_ci_counterexample :
    ciMatches "star-rating one" = ["one"] ∧ extract_rating "star-rating one" = 0 := by
  decide

/-- C1 (amended): `extract_rating` matches case-SENSITIVELY against the
capitalised tokens One..Five; a class string containing exactly one of them
yields the corresponding 1..5, and one containing none yields 0. -/
theorem extract_rating_cs_exact (s : String) :
    (capMatches s = [] → extract_rating s = 0) ∧
    (capMatches s = ["One"] → extract_rating s = 1) ∧
    (capMatches s = ["Two"] → extract_rating s = 2) ∧
    (capMatches s = ["Three"] → extract_rating s = 3) ∧
    (capMatches s = ["Four"] → extract_rating s = 4) ∧
    (capMatches s = ["Five"] → extract_rating s = 5) := by
  cases h1 : strContains s "One" <;> cases h2 : strContains s "Two" <;>
    cases h3 : strContains s "Three" <;> cases h4 : strContains s "Four" <;>
      cases h5 : strContains s "Five" <;>
        simp [capMatches, extract_rating, ratingFirstMatch, ratingMap, List.filter,
          h1, h2, h3, h4, h5]

/-- C1 witness: the real rating class `"star-rating Three"` contains exactly
the token Three and maps to 3. -/
theorem extract_rating_cs_exact_witness : extract_rating "star-rating Three" = 3 :=
  (extract_rating_cs_exact "star-rating Three").2.2.2.1 (by decide)

/-- A non-whitespace character survives `str.strip()`. -/
lemma mem_pyStripChars_of_mem {c : Char} {l : List Char} (h : c ∈ l)
    (hws : pyIsSpace c = false) : c ∈ pyStripChars l := by
  have step : ∀ m : List Char, c ∈ m → c ∈ m.dropWhile pyIsSpace := by
    intro m hm
    rw [← List.takeWhile_append_dropWhile (p := pyIsSpace) (l := m)] at hm
    rcases List.mem_append.1 hm with h1 | h2
    · exact absurd (List.mem_takeWhile_imp h1) (by simp [hws])
    · exact h2
  unfold pyStripChars
  rw [List.mem_reverse]
  exact step _ (List.mem_reverse.2 (step _ h))

/-- Membership through `splitAtFirst`: a character of the input is before
the separator, is a separator, or is after the first separator. -/
lemma splitAtFirst_mem (isSep : Char → Bool) :
    ∀ (l : List Char) (c : Char), c ∈ l →
      c ∈ (splitAtFirst isSep l).1 ∨ isSep c = true ∨
        ∃ ex, (splitAtFirst isSep l).2 = some ex ∧ c ∈ ex := by
  intro l
  induction l with
  | nil => intro c hc; exact absurd hc (List.not_mem_nil c)
  | cons d ds ih =>
    intro c hc
    cases hd : isSep d with
    | true =>
      simp only [splitAtFirst, hd, if_true]
      rcases List.mem_cons.1 hc with rfl | hcd
      · exact Or.inr (Or.inl hd)
      · exact Or.inr (Or.inr ⟨ds, rfl, hcd⟩)
    | false =>
      simp only [splitAtFirst, hd, Bool.false_eq_true, if_false]
      rcases List.mem_cons.1 hc with rfl | hcd
      · exact Or.inl (List.mem_cons_self c _)
      · rcases ih c hcd with h1 | h2 | ⟨ex, hex, hcex⟩
        · exact Or.inl (List.mem_cons_of_mem d h1)
        · exact Or.inr (Or.inl h2)
        · exact Or.inr (Or.inr ⟨ex, hex, hcex⟩)

/-- Characters of a digitpart continuation are digits or underscores. -/
lemma isDigitPartRest_chars :
    ∀ (l : List Char), isDigitPartRest l = true →
      ∀ c ∈ l, c.isDigit = true ∨ c = '_' := by
  intro l
  induction l with
  | nil => intro _ c hc; exact absurd hc (List.not_mem_nil c)
  | cons a as ih =>
    intro h c hc
    cases as with
    | nil =>
      have ha : a.isDigit = true := h
      rcases List.mem_cons.1 hc with rfl | hcs
      · exact Or.inl ha
      · exact absurd hcs (List.not_mem_nil c)
    | cons d ds =>
      have h' : (if (a == '_') = true then d.isDigit && isDigitPartRest (d :: ds)
          else a.isDigit && isDigitPartRest (d :: ds)) = true := h
      by_cases hau : (a == '_') = true
      · rw [if_pos hau] at h'
        obtain ⟨hd, hrest⟩ := Bool.and_eq_true_iff.1 h'
        rcases List.mem_cons.1 hc with rfl | hcs
        · exact Or.inr (by simpa using hau)
        · exact ih hrest c hcs
      · rw [if_neg hau] at h'
        obtain ⟨had, hrest⟩ := Bool.and_eq_true_iff.1 h'
        rcases List.mem_cons.1 hc with rfl | hcs
        · exact Or.inl had
        · exact ih hrest c hcs

/-- Characters of a digitpart are digits or underscores. -/
lemma isDigitPart_chars {l : List Char} (h : isDigitPart l = true) :
    ∀ c ∈ l, c.isDigit = true ∨ c = '_' := by
  cases l with
  | nil => intro c hc; exact absurd hc (List.not_mem_nil c)
  | cons a as =>
    have h' : (a.isDigit && isDigitPartRest as) = true := h
    obtain ⟨ha, hrest⟩ := Bool.and_eq_true_iff.1 h'
    intro c hc
    rcases List.mem_cons.1 hc with rfl | hcs
    · exact Or.inl ha
    · exact isDigitPartRest_chars as hrest c hcs

/-- Characters of a string accepted by the mantissa grammar. -/
lemma mantissaVal_chars {l : List Char} {q : Rat} (h : mantissaVal l = some q) :
    ∀ c ∈ l, c.isDigit = true ∨ c = '.' ∨ c = '_' := by
  have hip : (splitAtFirst dotSepChar l).1 = []
      ∨ isDigitPart (splitAtFirst dotSepChar l).1 = true := by
    simp only [mantissaVal] at h
    split at h
    · split at h
      · right; assumption
      · exact absurd h (by simp)
    · split at h
      · rename_i hguard
        have hipb := Bool.and_elim_left (Bool.and_elim_left hguard)
        rcases Bool.or_eq_true_iff.1 hipb with hie | hdp
        · exact Or.inl (List.isEmpty_iff.1 hie)
        · exact Or.inr hdp
      · exact absurd h (by simp)
  have hfps : ∀ fp, (splitAtFirst dotSepChar l).2 = some fp →
      fp = [] ∨ isDigitPart fp = true := by
    intro fp hfp2
    simp only [mantissaVal] at h
    split at h
    · rename_i heq
      rw [hfp2] at heq
      exact absurd heq (by simp)
    · rename_i fp' heq
      have hfpeq : fp = fp' := by
        have := hfp2.symm.trans heq
        exact Option.some.inj this
      subst hfpeq
      split at h
      · rename_i hguard
        have hfpb := Bool.and_elim_right (Bool.and_elim_left hguard)
        rcases Bool.or_eq_true_iff.1 hfpb with hie | hdp
        · exact Or.inl (List.isEmpty_iff.1 hie)
        · exact Or.inr hdp
      · exact absurd h (by simp)
  intro c hc
  rcases splitAtFirst_mem dotSepChar l c hc with hm | hsep | ⟨fp, hfp2, hcfp⟩
  · rcases hip with hie | hdp
    · rw [hie] at hm; exact absurd hm (List.not_mem_nil c)
    · rcases isDigitPart_chars hdp c hm with hd | hd
      · exact Or.inl hd
      · exact Or.inr (Or.inr hd)
  · exact Or.inr (Or.inl (by simpa [dotSepChar] using hsep))
  · rcases hfps fp hfp2 with hie | hdp
    · rw [hie] at hcfp; exact absurd hcfp (List.not_mem_nil c)
    · rcases isDigitPart_chars hdp c hcfp with hd | hd
      · exact Or.inl hd
      · exact Or.inr (Or.inr hd)

/-- Characters of a string accepted by the exponent grammar. -/
lemma expIntVal_chars {l : List Char} {e : Int} (h : expIntVal l = some e) :
    ∀ c ∈ l, c.isDigit = true ∨ c = '_' ∨ c = '+' ∨ c = '-' := by
  intro c hc
  simp only [expIntVal] at h
  split at h
  · rename_i r
    split at h
    · rename_i hdp
      rcases List.mem_cons.1 hc with rfl | hcs
      · exact Or.inr (Or.inr (Or.inl rfl))
      · rcases isDigitPart_chars hdp c hcs with hd | hd
        · exact Or.inl hd
        · exact Or.inr (Or.inl hd)
    · exact absurd h (by simp)
  · rename_i r
    split at h
    · rename_i hdp
      rcases List.mem_cons.1 hc with rfl | hcs
      · exact Or.inr (Or.inr (Or.inr rfl))
      · rcases isDigitPart_chars hdp c hcs with hd | hd
        · exact Or.inl hd
        · exact Or.inr (Or.inl hd)
    · exact absurd h (by simp)
  · split at h
    · rename_i hdp
      rcases isDigitPart_chars hdp c hc with hd | hd
      · exact Or.inl hd
      · exact Or.inr (Or.inl hd)
    · exact absurd h (by simp)

/-- Characters of a string accepted by the finite-float grammar. -/
lemma pyFloatFinite_chars {l : List Char} {q : Rat} (h : pyFloatFinite l = some q) :
    ∀ c ∈ l, c.isDigit = true ∨ c = '.' ∨ c = '_' ∨ c = '+' ∨ c = '-'
      ∨ c = 'e' ∨ c = 'E' := by
  have hmv : ∃ m, mantissaVal (splitAtFirst expSepChar l).1 = some m := by
    simp only [pyFloatFinite] at h
    split at h
    · exact absurd h (by simp)
    · rename_i m heq
      exact ⟨m, heq⟩
  have hev : ∀ ex, (splitAtFirst expSepChar l).2 = some ex →
      ∃ e, expIntVal ex = some e := by
    intro ex hex
    simp only [pyFloatFinite] at h
    split at h
    · exact absurd h (by simp)
    · rename_i m heq
      split at h
      · rename_i h2
        rw [hex] at h2
        exact absurd h2 (by simp)
      · rename_i ex' heq2
        have hexeq : ex = ex' := Option.some.inj (hex.symm.trans heq2)
        subst hexeq
        split at h
        · exact absurd h (by simp)
        · rename_i e heq3
          exact ⟨e, heq3⟩
  intro c hc
  obtain ⟨m, hm⟩ := hmv
  rcases splitAtFirst_mem expSepChar l c hc with hcm | hsep | ⟨ex, hex, hcex⟩
  · rcases mantissaVal_chars hm c hcm with hd | hd | hd
    · exact Or.inl hd
    · exact Or.inr (Or.inl hd)
    · exact Or.inr (Or.inr (Or.inl hd))
  · rcases Bool.or_eq_true_iff.1 hsep with he | he
    · exact Or.inr (Or.inr (Or.inr (Or.inr (Or.inr (Or.inl (by simpa using he))))))
    · exact Or.inr (Or.inr (Or.inr (Or.inr (Or.inr (Or.inr (by simpa using he))))))
  · obtain ⟨e, he⟩ := hev ex hex
    rcases expIntVal_chars he c hcex with hd | hd | hd | hd
    · exact Or.inl hd
    · exact Or.inr (Or.inr (Or.inl hd))
    · exact Or.inr (Or.inr (Or.inr (Or.inl hd)))
    · exact Or.inr (Or.inr (Or.inr (Or.inr (Or.inl hd))))

/-- Characters of a string accepted by the unsigned `float(...)` body:
digits, dot, underscore, signs (in the exponent), or a letter of
`e`/`inf`/`infinity`/`nan` up to case. -/
lemma pyFloatUnsigned_chars {l : List Char} {v : PyFloat}
    (h : pyFloatUnsigned l = some v) :
    ∀ c ∈ l, c.isDigit = true ∨ c = '.' ∨ c = '_' ∨ c = '+' ∨ c = '-'
      ∨ lowerChar c ∈ (['e', 'i', 'n', 'f', 't', 'y', 'a'] : List Char) := by
  intro c hc
  have hlc : lowerChar c ∈ l.map lowerChar := List.mem_map_of_mem lowerChar hc
  simp only [pyFloatUnsigned] at h
  split at h
  · rename_i hinf
    refine Or.inr (Or.inr (Or.inr (Or.inr (Or.inr ?_))))
    rcases Bool.or_eq_true_iff.1 hinf with he | he
    · have heq : l.map lowerChar = "inf".data := by simpa using he
      have hsub : ∀ y ∈ "inf".data, y ∈ (['e', 'i', 'n', 'f', 't', 'y', 'a'] : List Char) := by
        decide
      rw [heq] at hlc
      exact hsub _ hlc
    · have heq : l.map lowerChar = "infinity".data := by simpa using he
      have hsub : ∀ y ∈ "infinity".data,
          y ∈ (['e', 'i', 'n', 'f', 't', 'y', 'a'] : List Char) := by
        decide
      rw [heq] at hlc
      exact hsub _ hlc
  · split at h
    · rename_i hnan
      refine Or.inr (Or.inr (Or.inr (Or.inr (Or.inr ?_))))
      have heq : l.map lowerChar = "nan".data := by simpa using hnan
      have hsub : ∀ y ∈ "nan".data, y ∈ (['e', 'i', 'n', 'f', 't', 'y', 'a'] : List Char) := by
        decide
      rw [heq] at hlc
      exact hsub _ hlc
    · rcases Option.map_eq_some'.1 h with ⟨q, hq, _⟩
      rcases pyFloatFinite_chars hq c hc with hd | hd | hd | hd | hd | hd | hd
      · exact Or.inl hd
      · exact Or.inr (Or.inl hd)
      · exact Or.inr (Or.inr (Or.inl hd))
      · exact Or.inr (Or.inr (Or.inr (Or.inl hd)))
      · exact Or.inr (Or.inr (Or.inr (Or.inr (Or.inl hd))))
      · rw [hd]
        exact Or.inr (Or.inr (Or.inr (Or.inr (Or.inr (by decide)))))
      · rw [hd]
        exact Or.inr (Or.inr (Or.inr (Or.inr (Or.inr (by decide)))))

/-- Characters of a string accepted by `float(...)`. -/
lemma pyFloatVal_chars {l : List Char} {v : PyFloat} (h : pyFloatVal l = some v) :
    ∀ c ∈ l, c.isDigit = true ∨ c = '.' ∨ c = '_' ∨ c = '+' ∨ c = '-'
      ∨ pyIsSpace c = true
      ∨ lowerChar c ∈ (['e', 'i', 'n', 'f', 't', 'y', 'a'] : List Char) := by
  intro c hc
  by_cases hws : pyIsSpace c = true
  · exact Or.inr (Or.inr (Or.inr (Or.inr (Or.inr (Or.inl hws)))))
  · have hc' : c ∈ pyStripChars l :=
      mem_pyStripChars_of_mem hc (by simpa using hws)
    have push : c.isDigit = true ∨ c = '.' ∨ c = '_' ∨ c = '+' ∨ c = '-'
        ∨ lowerChar c ∈ (['e', 'i', 'n', 'f', 't', 'y', 'a'] : List Char) →
        c.isDigit = true ∨ c = '.' ∨ c = '_' ∨ c = '+' ∨ c = '-'
        ∨ pyIsSpace c = true
        ∨ lowerChar c ∈ (['e', 'i', 'n', 'f', 't', 'y', 'a'] : List Char) := by
      tauto
    simp only [pyFloatVal] at h
    split at h
    · rename_i r hr
      rw [hr, List.mem_cons] at hc'
      rcases hc' with hc' | hc'
      · exact Or.inr (Or.inr (Or.inr (Or.inl hc')))
      · exact push (pyFloatUnsigned_chars h c hc')
    · rename_i r hr
      rw [hr, List.mem_cons] at hc'
      rcases Option.map_eq_some'.1 h with ⟨v', hv', _⟩
      rcases hc' with hc' | hc'
      · exact Or.inr (Or.inr (Or.inr (Or.inr (Or.inl hc'))))
      · exact push (pyFloatUnsigned_chars hv' c hc')
    · exact push (pyFloatUnsigned_chars h c hc')

/-- C2, counterexample: the claim requires `clean_price` to strip `€` and
return 12.5, but `BaseScraper.clean_price` removes only `£`/`$`, so
`float("€12.50")` raises and the result is 0.0. The all-symbol stripping the
claim describes is the behaviour of `DataProcessor.clean_price` (second
conjunct). -/
theorem clean_price_counterexample :
    clean_price "€12.50" = PyFloat.finite 0 ∧
    dp_clean_price "€12.50" = PyFloat.finite (25 / 2) := by
  constructor
  · rfl
  · have h : dp_clean_price "€12.50"
        = PyFloat.finite (((12 : Nat) : Rat) + ((50 : Nat) : Rat) / ((100 : Nat) : Rat)) := rfl
    have hv : ((12 : Nat) : Rat) + ((50 : Nat) : Rat) / ((100 : Nat) : Rat) = 25 / 2 := by
      norm_num
    rw [h, hv]

/-- C2 (amended): `BaseScraper.clean_price` removes only `£` and `$` (plus
surrounding whitespace); any input retaining a character that Python's
`float(...)` can never accept — not a digit, dot, sign, underscore,
whitespace, exponent letter or a letter of `inf`/`infinity`/`nan` in either
case — makes it return 0.0 with a warning, never an exception. In particular
`€`, `¥`, `₹` and ordinary embedded text are NOT stripped. (The `hsafe`
hypothesis keeps the statement within the modelled alphabet: ASCII plus the
three unstripped currency symbols; Unicode decimal digits and Unicode-only
whitespace, which `float` also understands, are outside the model.) -/
theorem clean_price_strips_only_gbp_usd (s : String) (c : Char) (hmem : c ∈ s.data)
    (hsafe : c.toNat < 128 ∨ c ∈ (['€', '¥', '₹'] : List Char))
    (hdig : c.isDigit = false) (hdot : c ≠ '.') (hus : c ≠ '_')
    (hplus : c ≠ '+') (hminus : c ≠ '-')
    (hgbp : c ≠ '£') (husd : c ≠ '$') (hws : pyIsSpace c = false)
    (hlet : lowerChar c ∉ (['e', 'i', 'n', 'f', 't', 'y', 'a'] : List Char)) :
    clean_price s = PyFloat.finite 0 := by
  have hexp : clean_price s =
      (match pyFloatVal (pyStripChars (removeAll '$' (removeAll '£' s.data))) with
        | some v => v
        | none => PyFloat.finite 0) := rfl
  rw [hexp]
  have h1 : c ∈ removeAll '$' (removeAll '£' s.data) := by
    unfold removeAll
    rw [List.mem_filter]
    refine ⟨List.mem_filter.2 ⟨hmem, ?_⟩, ?_⟩
    · simpa using hgbp
    · simpa using husd
  have h2 : c ∈ pyStripChars (removeAll '$' (removeAll '£' s.data)) :=
    mem_pyStripChars_of_mem h1 hws
  cases hv : pyFloatVal (pyStripChars (removeAll '$' (removeAll '£' s.data))) with
  | none => rfl
  | some v =>
    exfalso
    rcases pyFloatVal_chars hv c h2 with hd | hd | hd | hd | hd | hd | hd
    · exact absurd hd (by simp [hdig])
    · exact hdot hd
    · exact hus hd
    · exact hplus hd
    · exact hminus hd
    · exact absurd hd (by simp [hws])
    · exact hlet hd

/-- C2 witness: `¥` is not stripped, so the price text `"¥12.50"` parses to
0.0. -/
theorem clean_price_strips_only_gbp_usd_witness :
    clean_price "¥12.50" = PyFloat.finite 0 :=
  clean_price_strips_only_gbp_usd "¥12.50" '¥' (by decide) (Or.inr (by decide))
    (by decide) (by decide) (by decide) (by decide) (by decide) (by decide)
    (by decide) (by decide) (by decide)

/-- C7 (code bug): on a filesystem where directory creation is denied, the
`except` handler of `save_to_csv`/`save_to_json` evaluates the non-existent
attribute `self.logger`, so an `AttributeError` escapes the save instead of
the claimed caught-warn-and-continue behaviour. -/
theorem save_raises_attribute_error :
    save_to_csv (fun _ => ["value"]) fsReadOnly "books.csv" [(1 : Nat)]
        = .error PyExc.attributeError ∧
    save_to_json fsReadOnly "books.json" [(1 : Nat)] = .error PyExc.attributeError :=
  ⟨rfl, rfl⟩

/-- C10: saving an empty record list is a no-op — both savers return before
creating the directory or touching any file, for every filesystem state. -/
theorem save_empty_writes_nothing {α : Type} (keysOf : α → List String)
    (fs : FS) (fn : String) :
    save_to_csv keysOf fs fn ([] : List α) = .ok fs ∧
    save_to_json fs fn ([] : List α) = .ok fs :=
  ⟨rfl, rfl⟩

/-- C8, counterexample: a 304 Not Modified final response is a non-2xx
status, yet `raise_for_status` does not raise for it, so `fetch_page` returns
the parsed document rather than the `None` the claim requires. -/
theorem fetch_page_non2xx_counterexample :
    fetch_page net304 parseAnyOk "https://books.toscrape.com" = some soupEmpty ∧
    (304 < 200 ∨ 300 ≤ 304) :=
  ⟨rfl, Or.inr (by norm_num)⟩

/-- C8 (amended): `fetch_page` never propagates an exception — a raised
request exception, a 4xx/5xx status (via `raise_for_status`) or a parse
error each yield `None`; any other final status (2xx, and also non-error
statuses such as 304) yields the parsed document. -/
theorem fetch_page_failure_modes (net : String → HttpOutcome)
    (parse : String → Except PyExc Soup) (url : String) :
    (∀ e, net url = .raised e → fetch_page net parse url = none) ∧
    (∀ st body, net url = .response st body → 400 ≤ st → st < 600 →
      fetch_page net parse url = none) ∧
    (∀ st body e, net url = .response st body → raise_for_status st = .ok () →
      parse body = .error e → fetch_page net parse url = none) ∧
    (∀ st body soup, net url = .response st body → ¬(400 ≤ st ∧ st < 600) →
      parse body = .ok soup → fetch_page net parse url = some soup) := by
  refine ⟨?_, ?_, ?_, ?_⟩
  · intro e h
    simp [fetch_page, fetch_page_body, h]
  · intro st body h h4 h6
    have hr : raise_for_status st = .error .httpError := by
      unfold raise_for_status
      rw [if_pos ⟨h4, h6⟩]
    simp [fetch_page, fetch_page_body, h, hr]
  · intro st body e h hok hp
    simp [fetch_page, fetch_page_body, h, hok, hp]
  · intro st body soup h hn hp
    have hr : raise_for_status st = .ok () := by
      unfold raise_for_status
      rw [if_neg hn]
    simp [fetch_page, fetch_page_body, h, hr, hp]

/-- C8 witness: a 200 response parses and is returned. -/
theorem fetch_page_failure_modes_witness :
    fetch_page net200 parseAnyOk "https://books.toscrape.com" = some soupEmpty :=
  (fetch_page_failure_modes net200 parseAnyOk "https://books.toscrape.com").2.2.2
    200 "page" soupEmpty rfl (by norm_num) rfl

/-- C3: on the global walk, with the first page carrying a "Page X of Y"
marker (`Y ≥ 1`), the listing pages fetched number `min Y max_pages` for a
positive `max_pages`; `max_pages = 1` yields exactly the first page's items;
`max_pages = 0` (falsy in Python) or `None` yields all `Y` pages. -/
theorem scrape_all_books_pagination (env : Env) (efd : Bool) (p : Soup) (Y m : Nat)
    (h1 : env.fetch (catalogueUrl 1) = some p)
    (hm : p.pager = some (some Y)) (hY : 1 ≤ Y) (hpos : 1 ≤ m) :
    (scrape_all_books env efd (some m)).2.length = min Y m ∧
    (scrape_all_books env efd (some 1)).1 = extractLoop env (catalogueUrl 1) efd p.elements ∧
    (scrape_all_books env efd (some 0)).2.length = Y ∧
    (scrape_all_books env efd none).2.length = Y := by
  have htot : get_total_pages p = Y := by simp [get_total_pages, hm]
  have hm0 : (m == 0) = false := by
    simp only [beq_eq_false_iff_ne, ne_eq]
    omega
  refine ⟨?_, ?_, ?_, ?_⟩
  · simp only [scrape_all_books, h1, htot, hm0, Bool.false_eq_true, if_false,
      List.length_cons, List.length_map, List.length_range']
    have : 1 ≤ min Y m := le_min hY hpos
    omega
  · simp [scrape_all_books, h1, htot, Nat.min_eq_right hY]
  · simp only [scrape_all_books, h1, htot, beq_self_eq_true, if_true,
      List.length_cons, List.length_map, List.length_range']
    omega
  · simp only [scrape_all_books, h1, htot, List.length_cons, List.length_map,
      List.length_range']
    omega

/-- C3 witness: with a 3-page catalogue and `max_pages = 2`, exactly two
listing pages are fetched. -/
theorem scrape_all_books_pagination_witness :
    (scrape_all_books envP false (some 2)).2.length = 2 := by
  have h :=
    (scrape_all_books_pagination envP false soupP 3 2 rfl rfl (by norm_num) (by norm_num)).1
  rw [h]
  norm_num

/-- The detail-following page loop keeps exactly the successful
`detailResult`s, in order. -/
lemma extractLoop_true_eq_filterMap (env : Env) (purl : String)
    (es : List BookElement) :
    extractLoop env purl true es = es.filterMap (detailResult env purl) := by
  induction es with
  | nil => rfl
  | cons e es ih =>
    simp only [extractLoop, if_true, List.filterMap_cons]
    cases hb : extract_book_details e purl with
    | none => simp [detailResult, hb, ih]
    | some basic =>
      cases hdu : basic.detail_url == "" with
      | true => simp [detailResult, hb, hdu, ih]
      | false =>
        cases hf : extract_book_full_details env basic.detail_url with
        | none => simp [detailResult, hb, hdu, hf, ih]
        | some full => simp [detailResult, hb, hdu, hf, ih]

/-- A `filterMap` keeps one element per success of `f`. -/
lemma length_filterMap_eq {α β : Type} (f : α → Option β) (l : List α) :
    (l.filterMap f).length = (l.filter (fun a => (f a).isSome)).length := by
  induction l with
  | nil => rfl
  | cons a l ih => cases hf : f a <;> simp [List.filterMap_cons, List.filter_cons, hf, ih]

/-- C5: with `follow_detail_links` on, the items of a listing page are
exactly the successful detail fetch-and-extractions, one per element whose
detail step succeeded; an element whose detail fetch fails contributes
nothing (no partial listing-derived record). -/
theorem scrape_page_detail_only_successes (env : Env) (purl : String) (soup : Soup)
    (h : env.fetch purl = some soup) :
    scrape_page env purl true = soup.elements.filterMap (detailResult env purl) ∧
    (scrape_page env purl true).length
      = (soup.elements.filter (fun e => (detailResult env purl e).isSome)).length ∧
    ∀ b ∈ scrape_page env purl true, ∃ e ∈ soup.elements, detailResult env purl e = some b := by
  have he : scrape_page env purl true = extractLoop env purl true soup.elements := by
    simp [scrape_page, h]
  rw [he, extractLoop_true_eq_filterMap]
  exact ⟨rfl, length_filterMap_eq _ _, fun b hb => List.mem_filterMap.1 hb⟩

/-- C5 witness: the three-element page of `env3`, with the fetch of
`http://d2` failing, yields exactly 2 items. -/
theorem scrape_page_detail_only_successes_witness :
    (scrape_page env3 "http://lp" true).length = 2 := by
  have h := (scrape_page_detail_only_successes env3 "http://lp" soup3 rfl).2.1
  rw [h]
  decide

/-- C9, counterexample: a basic-extraction walk (`follow_detail_links`
false) yields an item with NO `category` key at all (`none`), not
`category = "Unknown"` as the claim requires. -/
theorem item_category_counterexample :
    (scrape_page envBasic (catalogueUrl 1) false).map (fun b => b.category) = [none] :=
  rfl

/-- C9 (amended): items from detail extraction always carry a category —
the breadcrumb's last link when it has at least two links, else `"Unknown"` —
while items from basic listing extraction carry no `category` key at all. -/
theorem item_category_shape (env : Env) (url purl : String) (e : BookElement) :
    (∀ b, extract_book_full_details env url = some b →
      ∃ soup, env.fetch url = some soup ∧ b.category = some (breadcrumbCategory soup) ∧
        (breadcrumbCategory soup = "Unknown" ∨
          ∃ links, soup.breadcrumbLinks = some links ∧ 2 ≤ links.length ∧
            breadcrumbCategory soup = pyStrip (links.getLastD ""))) ∧
    (∀ b, extract_book_details e purl = some b → b.category = none) := by
  constructor
  · intro b hb
    cases hf : env.fetch url with
    | none => rw [extract_book_full_details, hf] at hb; cases hb
    | some soup =>
      refine ⟨soup, rfl, ?_, ?_⟩
      · rw [extract_book_full_details, hf] at hb
        cases hb
        rfl
      · cases hbl : soup.breadcrumbLinks with
        | none => exact Or.inl (by rw [breadcrumbCategory, hbl])
        | some links =>
          by_cases hl : 2 ≤ links.length
          · exact Or.inr ⟨links, rfl, hl, by simp [breadcrumbCategory, hbl, hl]⟩
          · exact Or.inl (by simp [breadcrumbCategory, hbl, hl])
  · intro b hb
    cases hh : e.h3a with
    | none => rw [extract_book_details, hh] at hb; cases hb
    | some pr =>
      cases hic : e.imageContainer with
      | none =>
        obtain ⟨t, href⟩ := pr
        rw [extract_book_details, hh, hic] at hb
        cases hb
      | some imgOpt =>
        obtain ⟨t, href⟩ := pr
        rw [extract_book_details, hh, hic] at hb
        cases hb
        rfl

/-- C9 witness: the detail page at `http://d1` in `env3` produces an item
whose category is determined by its breadcrumb (Home > Books > Poetry). -/
theorem item_category_shape_witness :
    ∃ soup, env3.fetch "http://d1" = some soup ∧
      bookD.category = some (breadcrumbCategory soup) ∧
      (breadcrumbCategory soup = "Unknown" ∨
        ∃ links, soup.breadcrumbLinks = some links ∧ 2 ≤ links.length ∧
          breadcrumbCategory soup = pyStrip (links.getLastD "")) :=
  (item_category_shape env3 "http://d1" "http://lp" (elemFor "x")).1 bookD rfl

/-- With directory creation working and every row carrying the same key set,
a CSV save never raises and preserves the filesystem flags. -/
lemma save_to_csv_uniform_ok {α : Type} (keysOf : α → List String) (fs : FS)
    (fn : String) (d : List α) (K : List String) (h : fs.mkdirOk = true)
    (hk : ∀ r ∈ d, keysOf r = K) :
    ∃ fs', save_to_csv keysOf fs fn d = .ok fs' ∧ fs'.mkdirOk = true := by
  cases d with
  | nil => exact ⟨fs, rfl, h⟩
  | cons a l =>
    cases ho : fs.openOk with
    | false => exact ⟨fs, by simp [save_to_csv, h, ho], h⟩
    | true =>
      refine ⟨{ fs with files := fs.files ++ [("./data/csv/" ++ fn, (a :: l).length)] },
        ?_, h⟩
      simp [save_to_csv, h, ho]
      intro x hx k hkm
      rw [hk x (List.mem_cons_of_mem a hx)] at hkm
      rw [hk a (List.mem_cons_self a l)]
      exact hkm

/-- With directory creation working, a JSON save never raises and preserves
the filesystem flags. -/
lemma save_to_json_mkdirOk {α : Type} (fs : FS) (fn : String) (d : List α)
    (h : fs.mkdirOk = true) :
    ∃ fs', save_to_json fs fn d = .ok fs' ∧ fs'.mkdirOk = true := by
  cases d with
  | nil => exact ⟨fs, rfl, h⟩
  | cons a l =>
    cases ho : fs.openOk with
    | false => exact ⟨fs, by simp [save_to_json, h, ho], h⟩
    | true =>
      refine ⟨{ fs with files := fs.files ++ [("./data/json/" ++ fn, (a :: l).length)] },
        by simp [save_to_json, h, ho], h⟩

/-- The caught inline JSON save never changes the filesystem flags. -/
lemma inlineJsonSave_mkdirOk (fs : FS) (p : String) :
    (inlineJsonSave fs p).mkdirOk = fs.mkdirOk := by
  cases hm : fs.mkdirOk <;> cases ho : fs.openOk <;> simp [inlineJsonSave, hm, ho]

/-- Every validated-category row has exactly one of the two key shapes,
matching its validity flag. -/
lemma validate_one_keys (env : Env) (c : Category) :
    ((validate_one env c).is_valid = true ∧ vcategoryKeys (validate_one env c) = vkValid)
    ∨ ((validate_one env c).is_valid = false
        ∧ vcategoryKeys (validate_one env c) = vkInvalid) := by
  unfold validate_one
  split
  · exact Or.inr ⟨rfl, rfl⟩
  · split
    · exact Or.inr ⟨rfl, rfl⟩
    · dsimp only
      split
      · exact Or.inl ⟨rfl, rfl⟩
      · exact Or.inr ⟨rfl, rfl⟩

/-- A basic listing record carries exactly the basic key set. -/
lemma extract_book_details_keys {e : BookElement} {u : String} {b : Book}
    (h : extract_book_details e u = some b) : bookKeys b = bkBasic := by
  cases hh : e.h3a with
  | none => rw [extract_book_details, hh] at h; cases h
  | some pr =>
    obtain ⟨t, href⟩ := pr
    cases hic : e.imageContainer with
    | none => rw [extract_book_details, hh, hic] at h; cases h
    | some io =>
      rw [extract_book_details, hh, hic] at h
      cases h
      rfl

/-- A detail record carries exactly the full key set. -/
lemma extract_book_full_details_keys {env : Env} {u : String} {b : Book}
    (h : extract_book_full_details env u = some b) : bookKeys b = bkFull := by
  cases hf : env.fetch u with
  | none => rw [extract_book_full_details, hf] at h; cases h
  | some soup =>
    rw [extract_book_full_details, hf] at h
    cases h
    rfl

/-- Every record a page loop produces has the key set of its mode. -/
lemma mem_extractLoop_keys (env : Env) (u : String) (efd : Bool)
    (es : List BookElement) :
    ∀ b ∈ extractLoop env u efd es, bookKeys b = (if efd then bkFull else bkBasic) := by
  cases efd with
  | true =>
    intro b hb
    rw [extractLoop_true_eq_filterMap] at hb
    obtain ⟨e, he, hd⟩ := List.mem_filterMap.1 hb
    show bookKeys b = bkFull
    unfold detailResult at hd
    cases hbd : extract_book_details e u with
    | none => rw [hbd] at hd; cases hd
    | some basic =>
      rw [hbd] at hd
      have hd' : (if (basic.detail_url == "") = true then none
          else extract_book_full_details env basic.detail_url) = some b := hd
      by_cases hdu : (basic.detail_url == "") = true
      · rw [if_pos hdu] at hd'
        exact Option.noConfusion hd'
      · rw [if_neg hdu] at hd'
        exact extract_book_full_details_keys hd' 
  | false =>
    intro b
    induction es with
    | nil =>
      intro hb
      exact absurd hb (List.not_mem_nil b)
    | cons e es ih =>
      intro hb
      have hb' : b ∈ (match extract_book_details e u with
          | some b0 => b0 :: extractLoop env u false es
          | none => extractLoop env u false es) := hb
      show bookKeys b = bkBasic
      cases hbd : extract_book_details e u with
      | none =>
        rw [hbd] at hb'
        exact ih hb'
      | some b0 =>
        rw [hbd] at hb'
        rcases List.mem_cons.1 hb' with rfl | hbs
        · exact extract_book_details_keys hbd
        · exact ih hbs

/-- Every record a single-page scrape produces has the key set of its
mode. -/
lemma mem_scrape_page_keys (env : Env) (u : String) (efd : Bool) :
    ∀ b ∈ scrape_page env u efd, bookKeys b = (if efd then bkFull else bkBasic) := by
  intro b hb
  unfold scrape_page at hb
  cases hf : env.fetch u with
  | none =>
    rw [hf] at hb
    exact absurd hb (List.not_mem_nil b)
  | some soup =>
    rw [hf] at hb
    exact mem_extractLoop_keys env u efd soup.elements b hb

/-- Every record of a global walk has the key set of its mode — the walk
never mixes dict shapes, so the books CSV never trips the DictWriter. -/
lemma scrape_all_books_keys (env : Env) (efd : Bool) (mp : Option Nat) :
    ∀ b ∈ (scrape_all_books env efd mp).1,
      bookKeys b = (if efd then bkFull else bkBasic) := by
  intro b hb
  unfold scrape_all_books at hb
  dsimp only at hb
  cases hf : env.fetch (catalogueUrl 1) with
  | none =>
    rw [hf] at hb
    exact absurd hb (List.not_mem_nil b)
  | some p =>
    rw [hf] at hb
    rcases List.mem_append.1 hb with h1 | h2
    · exact mem_extractLoop_keys env (catalogueUrl 1) efd p.elements b h1
    · obtain ⟨lst, hlst, hbl⟩ := List.mem_flatten.1 h2
      obtain ⟨n, hn, rfl⟩ := List.mem_map.1 hlst
      exact mem_scrape_page_keys env (catalogueUrl n) efd b hbl

/-- With directory creation working and the validation verdicts unanimous
(all rows valid or all invalid, so the validated CSV's rows share one key
set), the CATEGORIES stage completes without an exception. -/
lemma orch_scrape_all_categories_ok (env : Env) (fs : FS) (h : fs.mkdirOk = true)
    (huni : (∀ c ∈ extract_categories env, (validate_one env c).is_valid = true)
      ∨ (∀ c ∈ extract_categories env, (validate_one env c).is_valid = false)) :
    ∃ r fs1, orch_scrape_all_categories env fs = .ok (r, fs1) ∧ fs1.mkdirOk = true := by
  unfold orch_scrape_all_categories
  cases hcat : extract_categories env with
  | nil => exact ⟨[], fs, rfl, h⟩
  | cons c cs =>
    rw [hcat] at huni
    obtain ⟨fsa, ha, hma⟩ := save_to_csv_uniform_ok categoryKeys fs "categories.csv"
      (c :: cs) ["name", "url", "book_count", "scraped_at"] h (fun r _ => rfl)
    have hkv : ∃ K, ∀ r ∈ (c :: cs).map (validate_one env), vcategoryKeys r = K := by
      rcases huni with hv | hv
      · refine ⟨vkValid, ?_⟩
        intro r hr
        obtain ⟨c2, hc2, rfl⟩ := List.mem_map.1 hr
        rcases validate_one_keys env c2 with ⟨_, hk⟩ | ⟨hfalse, _⟩
        · exact hk
        · have hcontr := hv c2 hc2
          rw [hfalse] at hcontr
          exact absurd hcontr (by decide)
      · refine ⟨vkInvalid, ?_⟩
        intro r hr
        obtain ⟨c2, hc2, rfl⟩ := List.mem_map.1 hr
        rcases validate_one_keys env c2 with ⟨htrue, _⟩ | ⟨_, hk⟩
        · have hcontr := hv c2 hc2
          rw [htrue] at hcontr
          exact absurd hcontr (by decide)
        · exact hk
    obtain ⟨K, hkfun⟩ := hkv
    obtain ⟨fsb, hb, hmb⟩ := save_to_csv_uniform_ok vcategoryKeys fsa
      "categories_validated.csv" ((c :: cs).map (validate_one env)) K hma hkfun
    refine ⟨(c :: cs).map (validate_one env), inlineJsonSave fsb "category_stats.json", ?_, ?_⟩
    · simp only [List.map_cons] at hb
      simp [ha, hb]
    · rw [inlineJsonSave_mkdirOk]; exact hmb

/-- With directory creation working, the BOOKS stage always completes without
an exception and returns exactly the walk's result. -/
lemma orch_scrape_all_books_ok (env : Env) (fs : FS) (efd : Bool) (mp : Option Nat)
    (h : fs.mkdirOk = true) :
    ∃ fs1, orch_scrape_all_books env fs efd mp
        = .ok ((scrape_all_books env efd mp).1, fs1) := by
  unfold orch_scrape_all_books
  cases hbk : (scrape_all_books env efd mp).1 with
  | nil => exact ⟨fs, by simp [hbk]⟩
  | cons b bs =>
    have hkeys : ∀ r ∈ (b :: bs), bookKeys r = (if efd then bkFull else bkBasic) := by
      rw [← hbk]
      exact fun r hr => scrape_all_books_keys env efd mp r hr
    obtain ⟨fsa, ha, hma⟩ := save_to_csv_uniform_ok bookKeys fs "books.csv" (b :: bs)
      (if efd then bkFull else bkBasic) h hkeys
    obtain ⟨fsb, hb2, hmb⟩ := save_to_json_mkdirOk fsa "books.json" (b :: bs) hma
    exact ⟨fsb, by simp [hbk, ha, hb2]⟩

/-- C4, counterexample: every fetch fails — in particular the first listing
page of the BOOKS stage — yet the pipeline does NOT transition to FAILED: it
records `success=true` with no error and an empty book list, because
`scrape_all_books` converts the first-page failure into an empty return
value instead of raising. -/
theorem pipeline_counterexample_first_page :
    env0.fetch (catalogueUrl 1) = none ∧
    (run_full_scraping_pipeline env0 fs0 false none).success = true ∧
    (run_full_scraping_pipeline env0 fs0 false none).error = none ∧
    (run_full_scraping_pipeline env0 fs0 false none).books = some [] :=
  ⟨rfl, rfl, rfl, rfl⟩

/-- C4 (amended): fetch failures never make the pipeline fail. As long as
persistence works (directory creation allowed) and the category-validation
verdicts are unanimous (mixed verdicts give the validated-categories rows
differing key sets, on which `csv.DictWriter` raises an uncaught
`ValueError` that DOES fail the run — see `save_to_csv`), the run always
finalizes with `success=true` and no recorded error, whatever the network
does; a first-page fetch failure merely aborts the global walk, leaving
`books = []`. `success=false` can only arise from a stage raising: that
`ValueError`, or the persistence `AttributeError` of C7. -/
theorem pipeline_success_despite_fetch_failures (env : Env) (fs : FS) (efd : Bool)
    (mp : Option Nat) (h : fs.mkdirOk = true)
    (huni : (∀ c ∈ extract_categories env, (validate_one env c).is_valid = true)
      ∨ (∀ c ∈ extract_categories env, (validate_one env c).is_valid = false)) :
    (run_full_scraping_pipeline env fs efd mp).success = true ∧
    (run_full_scraping_pipeline env fs efd mp).error = none ∧
    (env.fetch (catalogueUrl 1) = none →
      (run_full_scraping_pipeline env fs efd mp).books = some []) := by
  obtain ⟨r, fs1, hc, hm1⟩ := orch_scrape_all_categories_ok env fs h huni
  obtain ⟨fs2, hb⟩ := orch_scrape_all_books_ok env fs1 efd mp hm1
  have hrun : run_full_scraping_pipeline env fs efd mp
      = ⟨true, none, some r, some (scrape_all_books env efd mp).1,
         inlineJsonSave (generate_comprehensive_report env fs2).2 "pipeline_results.json"⟩ := by
    unfold run_full_scraping_pipeline
    simp [hc, hb]
  rw [hrun]
  refine ⟨rfl, rfl, fun h0 => ?_⟩
  have hempty : (scrape_all_books env efd mp).1 = [] := by
    unfold scrape_all_books
    simp [h0]
  simp [hempty]

/-- C4 witness: with a working network and filesystem the pipeline also
finalizes with `success=true`. -/
theorem pipeline_success_witness :
    (run_full_scraping_pipeline envP fs0 false (some 1)).success = true :=
  (pipeline_success_despite_fetch_failures envP fs0 false (some 1) rfl
    (Or.inl (fun c hc => absurd hc (List.not_mem_nil c)))).1

/-- Python `split` on a separator-free list is the singleton of that list. -/
lemma splitOnChar_not_mem {sep : Char} {l : List Char}
    (h : l.all (fun c => c != sep) = true) : splitOnChar sep l = [l] := by
  induction l with
  | nil => rfl
  | cons c cs ih =>
    rw [List.all_cons] at h
    obtain ⟨h1, h2⟩ := Bool.and_eq_true_iff.1 h
    have h1' : (c == sep) = false := by simpa using h1
    simp only [splitOnChar, ih h2, h1', Bool.false_eq_true, if_false]

/-- Python `split` at the first separator occurrence. -/
lemma splitOnChar_append {sep : Char} {a b : List Char}
    (h : a.all (fun c => c != sep) = true) :
    splitOnChar sep (a ++ sep :: b) = a :: splitOnChar sep b := by
  induction a with
  | nil => simp [splitOnChar]
  | cons c cs ih =>
    rw [List.all_cons] at h
    obtain ⟨h1, h2⟩ := Bool.and_eq_true_iff.1 h
    have h1' : (c == sep) = false := by simpa using h1
    rw [List.cons_append]
    simp only [splitOnChar]
    rw [ih h2]
    simp [h1']

/-- List `dropWhile` is idempotent. -/
lemma dropWhile_idem (p : Char → Bool) (l : List Char) :
    (l.dropWhile p).dropWhile p = l.dropWhile p := by
  induction l with
  | nil => rfl
  | cons c cs ih =>
    cases hc : p c
    · simp [List.dropWhile_cons, hc]
    · simp [List.dropWhile_cons, hc, ih]

/-- The head surviving a `dropWhile` fails its predicate. -/
lemma dropWhile_head_false {p : Char → Bool} {l : List Char} {c : Char}
    {cs : List Char} (h : l.dropWhile p = c :: cs) : p c = false := by
  induction l with
  | nil => simp at h
  | cons a l ih =>
    rw [List.dropWhile_cons] at h
    by_cases ha : p a = true
    · rw [if_pos ha] at h
      exact ih h
    · rw [if_neg ha] at h
      cases h
      simpa using ha

/-- Left-stripping first does not change a full strip. -/
lemma pyStripChars_dropWhile (l : List Char) :
    pyStripChars (l.dropWhile pyIsSpace) = pyStripChars l := by
  unfold pyStripChars
  rw [dropWhile_idem]

/-- Python `str.strip()` is idempotent. -/
lemma pyStripChars_idem (l : List Char) :
    pyStripChars (pyStripChars l) = pyStripChars l := by
  cases hS : pyStripChars l with
  | nil => rfl
  | cons c cs =>
    have hT : ((l.dropWhile pyIsSpace).reverse.dropWhile pyIsSpace).reverse
        = c :: cs := hS
    -- the stripped list is a prefix of the left strip, so its head fails ws
    have hdecomp : pyStripChars l
          ++ ((l.dropWhile pyIsSpace).reverse.takeWhile pyIsSpace).reverse
        = l.dropWhile pyIsSpace := by
      unfold pyStripChars
      rw [← List.reverse_append, List.takeWhile_append_dropWhile, List.reverse_reverse]
    rw [hS] at hdecomp
    have hhead : pyIsSpace c = false := by
      refine @dropWhile_head_false pyIsSpace l c
        (cs ++ ((l.dropWhile pyIsSpace).reverse.takeWhile
          pyIsSpace).reverse) ?_
      conv_lhs => rw [← hdecomp]
      rfl
    have hrev : (c :: cs).reverse.dropWhile pyIsSpace = (c :: cs).reverse := by
      have hh : (c :: cs).reverse
          = (l.dropWhile pyIsSpace).reverse.dropWhile pyIsSpace := by
        rw [← hT, List.reverse_reverse]
      rw [hh, dropWhile_idem]
    unfold pyStripChars
    have h1 : (c :: cs).dropWhile pyIsSpace = c :: cs := by
      rw [List.dropWhile_cons, hhead]
      simp
    rw [h1, hrev, List.reverse_reverse]

/-- Characters surviving a strip come from the original list. -/
lemma mem_of_mem_pyStripChars {c : Char} {l : List Char}
    (h : c ∈ pyStripChars l) : c ∈ l := by
  unfold pyStripChars at h
  rw [List.mem_reverse] at h
  have h2 := (List.dropWhile_sublist pyIsSpace).subset h
  rw [List.mem_reverse] at h2
  exact (List.dropWhile_sublist pyIsSpace).subset h2

/-- An `all` bound transfers to the left strip. -/
lemma all_dropWhile {p q : Char → Bool} {l : List Char} (h : l.all q = true) :
    (l.dropWhile p).all q = true :=
  List.all_eq_true.2 fun c hc =>
    List.all_eq_true.1 h c ((List.dropWhile_sublist p).subset hc)

/-- An `all` bound transfers to the full strip. -/
lemma all_pyStripChars {q : Char → Bool} {l : List Char} (h : l.all q = true) :
    (pyStripChars l).all q = true :=
  List.all_eq_true.2 fun c hc => List.all_eq_true.1 h c (mem_of_mem_pyStripChars hc)

/-- Stripping a string of the shape `nm(ds)` only left-strips `nm`, because
the final `)` is not whitespace. -/
lemma pyStripChars_paren (nm ds : List Char) :
    pyStripChars (nm ++ '(' :: (ds ++ [')']))
      = nm.dropWhile pyIsSpace ++ '(' :: (ds ++ [')']) := by
  unfold pyStripChars
  have h1 : List.dropWhile pyIsSpace (nm ++ '(' :: (ds ++ [')']))
      = nm.dropWhile pyIsSpace ++ '(' :: (ds ++ [')']) := by
    rw [List.dropWhile_append]
    split
    · next hnil =>
      rw [List.isEmpty_iff] at hnil
      rw [hnil, List.dropWhile_cons]
      have hp : pyIsSpace '(' = false := rfl
      rw [hp]
      simp
    · rfl
  rw [h1]
  have h2 : (nm.dropWhile pyIsSpace ++ '(' :: (ds ++ [')'])).reverse
      = ')' :: (ds.reverse ++ '(' :: (nm.dropWhile pyIsSpace).reverse) := by
    simp
  rw [h2, List.dropWhile_cons]
  have h3 : pyIsSpace ')' = false := rfl
  rw [h3]
  simp only [Bool.false_eq_true, if_false]
  rw [← h2, List.reverse_reverse]

/-- C6, counterexample: for the link text `"A (3"` — which has no
parenthesized count — the claim requires name `"A (3"` (the trimmed text) and
count 0; the code instead truncates the name at the first `(`, producing
`"A"`. -/
theorem parse_category_counterexample :
    (parse_category_link "A (3" "u").name = "A" ∧
    (parse_category_link "A (3" "u").book_count = 0 := by
  constructor <;> rfl

/-- The `name` component of `parse_category_link`, written out. -/
lemma parse_category_link_name (text href : String) :
    (parse_category_link text href).name
      = String.mk (pyStripChars (headSplit '(' (pyStripChars text.data))) := rfl

/-- The `book_count` component of `parse_category_link`, written out. -/
lemma parse_category_link_count (text href : String) :
    (parse_category_link text href).book_count
      = (if containsChar (pyStripChars text.data) '('
            && containsChar (pyStripChars text.data) ')' then
          (pyIntParse (pyStripChars (removeAll ')'
              (lastSplit '(' (pyStripChars text.data))))).getD 0
        else 0) := by
  have h0 : (parse_category_link text href).book_count
      = (if containsChar (pyStripChars text.data) '('
            && containsChar (pyStripChars text.data) ')' then
          match pyIntParse (pyStripChars (removeAll ')'
              (lastSplit '(' (pyStripChars text.data)))) with
          | some n => n
          | none => 0
        else 0) := rfl
  rw [h0]
  cases pyIntParse (pyStripChars (removeAll ')' (lastSplit '(' (pyStripChars text.data)))) <;>
    rfl

/-- C6 (amended): the name is always the trimmed text before the FIRST `(`
(the whole trimmed text when no parenthesis occurs); the count is parsed
(default 0 on failure) from the text after the last `(` with every `)`
removed, and only when the text contains both `(` and `)` — else 0. For a
text of the shape `nm(ds)` with parenthesis-free `nm` and `ds` this gives
name `strip nm` and count `int(strip ds)`-or-0; a parenthesis-free text
gives its own trimmed value as name with count 0. -/
theorem parse_category_wellformed (nm ds : List Char) (href : String)
    (hnm : nm.all (fun c => c != '(' && c != ')') = true)
    (hds : ds.all (fun c => c != '(' && c != ')') = true) :
    (parse_category_link (String.mk (nm ++ '(' :: (ds ++ [')']))) href).name
        = String.mk (pyStripChars nm) ∧
    (parse_category_link (String.mk (nm ++ '(' :: (ds ++ [')']))) href).book_count
        = (pyIntParse (pyStripChars ds)).getD 0 ∧
    ∀ t : List Char, t.all (fun c => c != '(' && c != ')') = true →
      (parse_category_link (String.mk t) href).name = String.mk (pyStripChars t) ∧
      (parse_category_link (String.mk t) href).book_count = 0 := by
  have hnm' : (nm.dropWhile pyIsSpace).all (fun c => c != '(' && c != ')') = true :=
    all_dropWhile hnm
  have hnmP : (nm.dropWhile pyIsSpace).all (fun c => c != '(') = true :=
    List.all_eq_true.2 fun c hc =>
      Bool.and_elim_left (List.all_eq_true.1 hnm' c hc)
  have hdsP : (ds ++ [')']).all (fun c => c != '(') = true := by
    rw [List.all_append]
    refine Bool.and_eq_true_iff.2 ⟨?_, by rfl⟩
    exact List.all_eq_true.2 fun c hc =>
      Bool.and_elim_left (List.all_eq_true.1 hds c hc)
  have hsplit : splitOnChar '(' (nm.dropWhile pyIsSpace ++ '(' :: (ds ++ [')']))
      = nm.dropWhile pyIsSpace :: [ds ++ [')']] := by
    rw [splitOnChar_append hnmP, splitOnChar_not_mem hdsP]
  have hcontains1 :
      containsChar (nm.dropWhile pyIsSpace ++ '(' :: (ds ++ [')'])) '(' = true :=
    List.any_eq_true.2 ⟨'(', by simp, by simp⟩
  have hcontains2 :
      containsChar (nm.dropWhile pyIsSpace ++ '(' :: (ds ++ [')'])) ')' = true :=
    List.any_eq_true.2 ⟨')', by simp, by simp⟩
  have hremove : removeAll ')' (lastSplit '(' (nm.dropWhile pyIsSpace
      ++ '(' :: (ds ++ [')']))) = ds := by
    unfold lastSplit
    rw [hsplit]
    show removeAll ')' (ds ++ [')']) = ds
    unfold removeAll
    rw [List.filter_append]
    have hx : ds.filter (fun c => c != ')') = ds :=
      List.filter_eq_self.2 fun c hc =>
        Bool.and_elim_right (List.all_eq_true.1 hds c hc)
    rw [hx]
    simp
  have hhead : headSplit '(' (nm.dropWhile pyIsSpace ++ '(' :: (ds ++ [')']))
      = nm.dropWhile pyIsSpace := by
    unfold headSplit
    rw [hsplit]
  refine ⟨?_, ?_, ?_⟩
  · rw [parse_category_link_name]
    show String.mk (pyStripChars (headSplit '('
        (pyStripChars (nm ++ '(' :: (ds ++ [')']))))) = String.mk (pyStripChars nm)
    rw [pyStripChars_paren, hhead, pyStripChars_dropWhile]
  · rw [parse_category_link_count]
    show (if containsChar (pyStripChars (nm ++ '(' :: (ds ++ [')']))) '('
            && containsChar (pyStripChars (nm ++ '(' :: (ds ++ [')']))) ')' then
          (pyIntParse (pyStripChars (removeAll ')'
              (lastSplit '(' (pyStripChars (nm ++ '(' :: (ds ++ [')']))))))).getD 0
        else 0) = (pyIntParse (pyStripChars ds)).getD 0
    rw [pyStripChars_paren, hcontains1, hcontains2, hremove]
    simp
  · intro t ht
    have htP : t.all (fun c => c != '(') = true :=
      List.all_eq_true.2 fun c hc => Bool.and_elim_left (List.all_eq_true.1 ht c hc)
    have htP' : (pyStripChars t).all (fun c => c != '(') = true := all_pyStripChars htP
    have hsplitT : splitOnChar '(' (pyStripChars t) = [pyStripChars t] :=
      splitOnChar_not_mem htP'
    have hcontT : containsChar (pyStripChars t) '(' = false := by
      cases hc : containsChar (pyStripChars t) '(' with
      | false => rfl
      | true =>
        obtain ⟨c, hcm, hcb⟩ := List.any_eq_true.1 hc
        have hcp := List.all_eq_true.1 htP' c hcm
        rw [show c = '(' from by simpa using hcb] at hcp
        simp at hcp
    constructor
    · rw [parse_category_link_name]
      show String.mk (pyStripChars (headSplit '(' (pyStripChars t)))
          = String.mk (pyStripChars t)
      unfold headSplit
      rw [hsplitT, pyStripChars_idem]
    · rw [parse_category_link_count]
      show (if containsChar (pyStripChars t) '(' && containsChar (pyStripChars t) ')' then
          (pyIntParse (pyStripChars (removeAll ')' (lastSplit '(' (pyStripChars t))))).getD 0
        else 0) = 0
      rw [hcontT]
      rfl

/-- C6 witness: `"Mystery (32)"` parses to name `Mystery`, count 32 (and the
category URL is resolved from the link's href). -/
theorem parse_category_wellformed_witness :
    (parse_category_link "Mystery (32)" "catalogue/category/books/mystery_3/index.html").name
        = "Mystery" ∧
    (parse_category_link "Mystery (32)" "catalogue/category/books/mystery_3/index.html").book_count
        = 32 := by
  have h := parse_category_wellformed "Mystery ".data "32".data
    "catalogue/category/books/mystery_3/index.html" (by decide) (by decide)
  have e : String.mk ("Mystery ".data ++ '(' :: ("32".data ++ [')'])) = "Mystery (32)" := by
    decide
  rw [e] at h
  exact ⟨by rw [h.1]; decide, by rw [h.2.1]; decide⟩

end ScrapBook
